import Mathlib

/-!
Verification development for the repository chunking / symbol-extraction
pipeline and the structured vector store of the DevOps-Insight code-analysis
system.

The shallow embedding below translates the relevant Python sources:

* `src/src/utils/symbol_extractor.py` — `SymbolExtractor.get_language_from_extension`,
  `SymbolExtractor.extract_symbols`, `SymbolExtractor._fallback_extraction`,
  `extract_file_symbols`;
* `src/src/utils/git_utils.py` — `get_language_from_extension`,
  `extract_imports_from_symbols`, `extract_symbol_names`,
  `process_file_structured`;
* `src/src/utils/vector_utils.py` — `StructuredVectorStore.search_structured_repo`,
  `StructuredVectorStore.search_by_symbols`, `StructuredVectorStore.search_by_imports`.

External collaborators (the tree-sitter parser, the langchain text splitter,
the embedding provider and the vecs backend) are modelled as explicit
function parameters whose outcomes the theorems quantify over: a raised
Python exception is an `Except.error`, a successful call an `Except.ok`.
-/

/-! ## Small helpers modelling Python string primitives -/

/-- Python `needle in hay` prefix step: does `hay` start with `needle`? -/
def charsStartWith : List Char → List Char → Bool
  | _, [] => true
  | [], _ :: _ => false
  | a :: as, b :: bs => a == b && charsStartWith as bs

/-- Python substring containment `needle in hay` on character lists. -/
def charsContain : List Char → List Char → Bool
  | [], needle => needle.isEmpty
  | h :: t, needle => charsStartWith (h :: t) needle || charsContain t needle

/-- Python `needle in hay` for strings (substring containment). -/
def containsStr (hay needle : String) : Bool :=
  charsContain hay.toList needle.toList

/-- Python `str.lower()`; like the CPython original it lowercases letters
(ASCII is all that occurs in the sources and claims). -/
def lowerStr (s : String) : String :=
  String.mk (s.toList.map Char.toLower)

/-- The single-quote character, kept out of string literals. -/
def squoteChar : Char := Char.ofNat 39

/-- The double-quote character. -/
def dquoteChar : Char := Char.ofNat 34

/-- Python `repr` of a string: single-quoted, switching to double quotes when
the string contains a single quote but no double quote, escaping the quote
character otherwise.  Exact for strings free of backslashes and control
characters, which covers every symbol name handled here. -/
def pyReprStr (s : String) : String :=
  if s.toList.contains squoteChar && !(s.toList.contains dquoteChar) then
    String.mk (dquoteChar :: s.toList ++ [dquoteChar])
  else
    String.mk (squoteChar ::
      (s.toList.flatMap fun c =>
        if c == squoteChar then [Char.ofNat 92, squoteChar] else [c])
      ++ [squoteChar])

/-- Python `", ".join`-style joining used by `str` on lists. -/
def joinWith (sep : String) : List String → String
  | [] => ""
  | [x] => x
  | x :: y :: xs => x ++ sep ++ joinWith sep (y :: xs)

/-- Python `str(v)` for `v` a list of strings: `repr` of each element joined
with `", "` inside square brackets. -/
def pyStrOfList (xs : List String) : String :=
  "[" ++ joinWith ", " (xs.map pyReprStr) ++ "]"

/-- Index of the last occurrence of `c` in `cs`, `-1` when absent —
Python `str.rfind`. -/
def lastIdx (cs : List Char) (c : Char) : Int :=
  cs.enum.foldl (fun acc p => if p.2 == c then (p.1 : Int) else acc) (-1)

/-- The extension component of `os.path.splitext(p)`: the suffix from the
last dot of the basename, empty when the basename has no dot or consists of
leading dots up to it (posixpath algorithm). -/
def splitextExt (p : String) : String :=
  let cs := p.toList
  let sepIndex := lastIdx cs '/'
  let dotIndex := lastIdx cs '.'
  if sepIndex < dotIndex then
    let start := (sepIndex + 1).toNat
    let d := dotIndex.toNat
    if ((cs.drop start).take (d - start)).any (fun ch => ch != '.') then
      String.mk (cs.drop d)
    else ""
  else ""

/-! ## Symbol extractor (`symbol_extractor.py`) -/

/-- Model of `SymbolExtractor.get_language_from_extension`
(symbol_extractor.py:72-98): maps a file extension to the tree-sitter language name. -/
def seExtensionMap : List (String × String) :=
  [(".py", "python"), (".js", "javascript"), (".jsx", "javascript"),
   (".ts", "typescript"), (".tsx", "typescript"), (".java", "java"),
   (".cpp", "cpp"), (".cc", "cpp"), (".cxx", "cpp"), (".c", "c"),
   (".h", "c"), (".hpp", "cpp"), (".cs", "csharp"), (".go", "go"),
   (".rs", "rust"), (".rb", "ruby"), (".php", "php"), (".swift", "swift"),
   (".kt", "kotlin")]

/-- Model of `SymbolExtractor.get_language_from_extension`. -/
def se_get_language_from_extension (file_path : String) : Option String :=
  (seExtensionMap.find? (fun kv => kv.1 == lowerStr (splitextExt file_path))).map (·.2)

/-- State of the `SymbolExtractor` instance together with its external
collaborators.  `tree_sitter_available` and `parsers` model the module flag
`TREE_SITTER_AVAILABLE` and the initialised `self.parsers` keys.
`parseOutcome language code` models the body of the `try` block of
`extract_symbols` (symbol_extractor.py:114-146): the external tree-sitter
parse of `code` followed by the per-language syntax-tree walk
(`_extract_python_symbols`, …); `Except.error` is a raised exception.
`findall pattern code` models `re.findall(pattern, code, re.MULTILINE)`. -/
structure ExtractorEnv where
  tree_sitter_available : Bool
  parsers : List String
  parseOutcome : String → String → Except String (List (String × List String))
  findall : String → String → List String

/-- The per-language regex tables of `_fallback_extraction`
(symbol_extractor.py:578-598), key `python`. -/
def pythonFallbackPatterns : List (String × List String) :=
  [("imports",
    ["^import\\s+[\\w\\.]+(?:\\s+as\\s+\\w+)?",
     "^from\\s+[\\w\\.]+\\s+import\\s+.+"]),
   ("functions", ["^def\\s+(\\w+)\\s*\\("]),
   ("classes", ["^class\\s+(\\w+)(?:\\s*\\(.*?\\))?:"])]

/-- The per-language regex tables of `_fallback_extraction`, key `javascript`. -/
def javascriptFallbackPatterns : List (String × List String) :=
  [("imports",
    ["import\\s+.*?from\\s+[\x27\"][^\x27\"]+[\x27\"]",
     "const\\s+.*?=\\s+require\\([\x27\"][^\x27\"]+[\x27\"]\\)"]),
   ("functions",
    ["function\\s+(\\w+)\\s*\\(",
     "(\\w+)\\s*=\\s*(?:async\\s+)?(?:function|\\([^)]*\\)\\s*=>)"]),
   ("classes", ["class\\s+(\\w+)(?:\\s+extends\\s+\\w+)?\\s*\\\x7b"])]

/-- The `patterns[language]` lookup of `_fallback_extraction`: only `python` and
`javascript` have entries. -/
def fallbackPatternsFor (language : String) : Option (List (String × List String)) :=
  if language == "python" then some pythonFallbackPatterns
  else if language == "javascript" then some javascriptFallbackPatterns
  else none

/-- The `symbols[symbol_type].extend(re.findall(pattern, ...))` accumulation for
one symbol type of `_fallback_extraction`. -/
def gatherMatches (env : ExtractorEnv) (code : String)
    (pats : List (String × List String)) (symbol_type : String) : List String :=
  match pats.find? (fun kv => kv.1 == symbol_type) with
  | some kv => kv.2.foldl (fun acc p => acc ++ env.findall p code) []
  | none => []

/-- Model of `SymbolExtractor._fallback_extraction` (symbol_extractor.py:574-608):
starts from `{imports: [], functions: [], classes: []}` and, when the language
has a pattern table, extends each category with the regex matches. -/
def fallback_extraction (env : ExtractorEnv) (code language : String) :
    List (String × List String) :=
  match fallbackPatternsFor language with
  | none => [("imports", []), ("functions", []), ("classes", [])]
  | some pats =>
      [("imports", gatherMatches env code pats "imports"),
       ("functions", gatherMatches env code pats "functions"),
       ("classes", gatherMatches env code pats "classes")]

/-- Model of `SymbolExtractor.extract_symbols` (symbol_extractor.py:100-146): fall back
to regex extraction when tree-sitter is unavailable or the language has no
parser; otherwise parse and walk the tree, falling back again if that raises. -/
def extract_symbols (env : ExtractorEnv) (code language : String) :
    List (String × List String) :=
  if !env.tree_sitter_available || !env.parsers.contains language then
    fallback_extraction env code language
  else
    match env.parseOutcome language code with
    | .ok syms => syms
    | .error _ => fallback_extraction env code language

/-- Model of `extract_file_symbols` (symbol_extractor.py:635-651). -/
def extract_file_symbols (env : ExtractorEnv) (file_path content : String) :
    List (String × List String) :=
  match se_get_language_from_extension file_path with
  | none => [("error", ["Unsupported file type"])]
  | some language => extract_symbols env content language

/-! ## Chunker (`git_utils.py`) -/

/-- The langchain `Language` enum members used by the extension map of
`git_utils.get_language_from_extension`. -/
inductive LCLanguage where
  | python | js | ts | java | kotlin | cpp | c | csharp | php | ruby
  | go | rust | swift | scala | markdown | html | sol | lua | perl
  | haskell | elixir | powershell | visualbasic6 | proto | rst | latex
  | cobol
deriving DecidableEq

/-- The `value` string of the langchain enum member. -/
def LCLanguage.value : LCLanguage → String
  | .python => "python" | .js => "js" | .ts => "ts" | .java => "java"
  | .kotlin => "kotlin" | .cpp => "cpp" | .c => "c" | .csharp => "csharp"
  | .php => "php" | .ruby => "ruby" | .go => "go" | .rust => "rust"
  | .swift => "swift" | .scala => "scala" | .markdown => "markdown"
  | .html => "html" | .sol => "sol" | .lua => "lua" | .perl => "perl"
  | .haskell => "haskell" | .elixir => "elixir" | .powershell => "powershell"
  | .visualbasic6 => "visualbasic6" | .proto => "proto" | .rst => "rst"
  | .latex => "latex" | .cobol => "cobol"

/-- The extension table of `git_utils.get_language_from_extension`
(git_utils.py:32-69). -/
def extensionMap : List (String × LCLanguage) :=
  [(".py", .python), (".js", .js), (".ts", .ts), (".jsx", .js),
   (".tsx", .ts), (".java", .java), (".kt", .kotlin), (".cpp", .cpp),
   (".cc", .cpp), (".cxx", .cpp), (".c", .c), (".h", .c), (".hpp", .cpp),
   (".cs", .csharp), (".php", .php), (".rb", .ruby), (".go", .go),
   (".rs", .rust), (".swift", .swift), (".scala", .scala),
   (".md", .markdown), (".html", .html), (".htm", .html), (".sol", .sol),
   (".lua", .lua), (".pl", .perl), (".hs", .haskell), (".ex", .elixir),
   (".exs", .elixir), (".ps1", .powershell), (".vb", .visualbasic6),
   (".proto", .proto), (".rst", .rst), (".tex", .latex), (".cob", .cobol),
   (".cbl", .cobol)]

/-- Model of `git_utils.get_language_from_extension` (git_utils.py:28-71). -/
def get_language_from_extension (file_path : String) : Option LCLanguage :=
  (extensionMap.find? (fun kv => kv.1 == lowerStr (splitextExt file_path))).map (·.2)

/-- Model of `language.value if language else unknown-fallback` (git_utils.py:144). -/
def languageName : Option LCLanguage → String
  | some l => l.value
  | none => "unknown"

/-- The `import_keys` list of `extract_imports_from_symbols` (git_utils.py:88). -/
def importKeys : List String :=
  ["imports", "includes", "usings", "uses", "requires"]

/-- Model of `extract_imports_from_symbols` (git_utils.py:83-94): concatenate the
non-empty import-like categories in key order. -/
def extract_imports_from_symbols (symbols : List (String × List String)) :
    List String :=
  importKeys.foldl
    (fun acc key =>
      match symbols.find? (fun kv => kv.1 == key) with
      | some kv => if kv.2.isEmpty then acc else acc ++ kv.2
      | none => acc)
    []

/-- The `symbol_mapping` table of `extract_symbol_names` (git_utils.py:102-108). -/
def symbolMapping : List (String × List String) :=
  [("functions", ["functions", "methods"]),
   ("classes", ["classes", "structs", "interfaces", "traits", "protocols"]),
   ("variables", ["variables", "constants", "defines"]),
   ("types", ["types", "enums", "typedefs"]),
   ("modules", ["modules", "namespaces", "packages"])]

/-- Model of `extract_symbol_names` (git_utils.py:97-119): merge synonymous categories
into the clean names and drop the categories left empty. -/
def extract_symbol_names (symbols : List (String × List String)) :
    List (String × List String) :=
  (symbolMapping.map fun m =>
    (m.1,
      m.2.foldl
        (fun acc key =>
          match symbols.find? (fun kv => kv.1 == key) with
          | some kv => if kv.2.isEmpty then acc else acc ++ kv.2
          | none => acc)
        [])).filter
    (fun kv => !kv.2.isEmpty)

/-- One of Python's JSON-able metadata values (string / int / bool). -/
inductive MValue where
  | s (v : String)
  | n (v : Nat)
  | b (v : Bool)
deriving DecidableEq

/-- A structured chunk dict as built by `process_file_structured`
(git_utils.py:152-217).  Embeddings are `None` until storage. -/
structure ChunkData where
  id : String
  repo_id : String
  chunk_id : Option Nat
  content : String
  embedding : Option (List Int)
  symbols : List (String × List String)
  imports : List String
  metadata : List (String × MValue)
deriving DecidableEq

/-- Dictionary lookup in a metadata mapping. -/
def metaLookup (key : String) (m : List (String × MValue)) : Option MValue :=
  (m.find? (fun kv => kv.1 == key)).map (·.2)

/-- The single-chunk dict of git_utils.py:152-165 and 203-217; `extra` is
empty for the ordinary whole-file record and `[("chunking_error", …)]` for
the split-failure fallback. -/
def whole_file_record (file_path repo_id content language_name timestamp : String)
    (clean_symbols : List (String × List String)) (imports : List String)
    (extra : List (String × MValue)) : ChunkData :=
  { id := file_path
    repo_id := repo_id
    chunk_id := none
    content := content
    embedding := none
    symbols := clean_symbols
    imports := imports
    metadata :=
      [("language", MValue.s language_name),
       ("size", MValue.n content.length),
       ("timestamp", MValue.s timestamp)] ++ extra }

/-- The per-segment chunk dict of git_utils.py:179-194. -/
def chunk_record (file_path repo_id doc language_name timestamp : String)
    (i total : Nat) (clean_symbols : List (String × List String))
    (imports : List String) : ChunkData :=
  { id := file_path ++ "#chunk_" ++ toString i
    repo_id := repo_id
    chunk_id := some i
    content := doc
    embedding := none
    symbols := clean_symbols
    imports := imports
    metadata :=
      [("language", MValue.s language_name),
       ("size", MValue.n doc.length),
       ("timestamp", MValue.s timestamp),
       ("total_chunks", MValue.n total),
       ("is_chunked", MValue.b true)] }

/-- The external langchain splitter:
`create_splitter_for_language(language, chunk_size, chunk_overlap)
.create_documents([content])`, returning the `page_content` of each produced
document; `Except.error` models a raised exception anywhere in the `try`
block of git_utils.py:168-198. -/
abbrev Splitter := LCLanguage → Nat → Nat → String → Except String (List String)

/-- Model of `should_chunk = len(content) > chunk_size and language is not None`
(git_utils.py:147). -/
def should_chunk (file_path content : String) (chunk_size : Nat) : Bool :=
  decide (chunk_size < content.length) &&
    (get_language_from_extension file_path).isSome

/-- The `try`-guarded splitting of git_utils.py:168-217: enumerate the
splitter documents into chunk records, or fall back to a single whole-file
record tagged `chunking_error` when the splitter raises. -/
def split_with (splitter : Splitter) (timestamp file_path content repo_id : String)
    (chunk_size chunk_overlap : Nat) (lang : LCLanguage)
    (clean_symbols : List (String × List String)) (imports : List String) :
    List ChunkData :=
  match splitter lang chunk_size chunk_overlap content with
  | .ok docs =>
      docs.enum.map fun p =>
        chunk_record file_path repo_id p.2 lang.value timestamp p.1 docs.length
          clean_symbols imports
  | .error e =>
      [whole_file_record file_path repo_id content lang.value timestamp
        clean_symbols imports [("chunking_error", MValue.s e)]]

/-- Model of `process_file_structured` (git_utils.py:122-217).  The source computes
`should_chunk = len(content) > chunk_size and language is not None` and
branches once; here the language option is matched first, realising the same
decision with the `Option` made explicit. -/
def process_file_structured (env : ExtractorEnv) (splitter : Splitter)
    (timestamp file_path content repo_id : String)
    (chunk_size chunk_overlap : Nat) : List ChunkData :=
  let symbols := extract_file_symbols env file_path content
  let imports := extract_imports_from_symbols symbols
  let clean_symbols := extract_symbol_names symbols
  match get_language_from_extension file_path with
  | none =>
      [whole_file_record file_path repo_id content "unknown" timestamp
        clean_symbols imports []]
  | some lang =>
      if chunk_size < content.length then
        split_with splitter timestamp file_path content repo_id chunk_size
          chunk_overlap lang clean_symbols imports
      else
        [whole_file_record file_path repo_id content lang.value timestamp
          clean_symbols imports []]

/-! ## Structured vector store (`vector_utils.py`) -/

/-- The flat attribute record persisted with each vector
(vector_utils.py:102-111).  The JSON round-trip through
`json.dumps`/`json.loads` at the storage boundary is modelled as the
identity on the structured fields. -/
structure StoredAttrs where
  repo_id : String
  chunk_id : Option Nat
  content : String
  symbols : List (String × List String)
  imports : List String
  metadata : List (String × MValue)
  repo_name : String
  path : String
deriving DecidableEq

/-- One `(id, cosine_distance, metadata)` tuple returned by
`collection.query(..., include_value=True, include_metadata=True)`
(vector_utils.py:157-163); with both flags set the tuple always has the three
positions the code checks for.  The distance is a real number whose value no
property here depends on; it is modelled with an integer carrier. -/
structure RawResult where
  id : String
  distance : Int
  attrs : StoredAttrs
deriving DecidableEq

/-- A result dict of `search_structured_repo` (vector_utils.py:180-190),
possibly tagged with `match_type` by the filtered searches. -/
structure SearchResult where
  id : String
  repo_id : String
  chunk_id : Option Nat
  content : String
  embedding : Option (List Int)
  symbols : List (String × List String)
  imports : List String
  metadata : List (String × MValue)
  similarity_score : Int
  match_type : Option String
deriving DecidableEq

/-- The per-tuple conversion of vector_utils.py:167-192: deserialize the
stored attributes and rebuild the schema record, never echoing the stored
vector (`embedding: None`). -/
def mkSearchResult (r : RawResult) : SearchResult :=
  { id := r.id
    repo_id := r.attrs.repo_id
    chunk_id := r.attrs.chunk_id
    content := r.attrs.content
    embedding := none
    symbols := r.attrs.symbols
    imports := r.attrs.imports
    metadata := r.attrs.metadata
    similarity_score := 1 - r.distance
    match_type := none }

/-- The backend of `search_structured_repo`: embedding the query and running
`collection.query` are external calls, modelled as a function from the query
text to either a raised exception or the result tuples (`limit` and filters
are applied inside the backend). -/
abbrev SearchBackend := String → Except String (List RawResult)

/-- Model of `StructuredVectorStore.search_structured_repo` (vector_utils.py:134-200):
convert every backend tuple, or return `[]` when the wrapped call raises. -/
def search_structured_repo (backend : SearchBackend) (query : String) :
    List SearchResult :=
  match backend query with
  | .ok results => results.map mkSearchResult
  | .error _ => []

/-- Python `symbol_type in symbols` on the deserialized symbols dict. -/
def assocHas (key : String) (m : List (String × List String)) : Bool :=
  m.any (fun kv => kv.1 == key)

/-- Python `symbols[symbol_type]` (total here; only used under `assocHas`). -/
def assocGetD (key : String) (m : List (String × List String)) : List String :=
  ((m.find? (fun kv => kv.1 == key)).map (·.2)).getD []

/-- The filter body of `search_by_symbols` (vector_utils.py:222-229): exact
membership in the requested category tags `exact_symbol`; otherwise
`symbol_name.lower() in str(v).lower()` over the category value lists tags
`partial_symbol`; otherwise the record is dropped. -/
def symbol_match_tag (symbol_type symbol_name : String) (r : SearchResult) :
    Option SearchResult :=
  if assocHas symbol_type r.symbols &&
      (assocGetD symbol_type r.symbols).contains symbol_name then
    some { r with match_type := some "exact_symbol" }
  else if r.symbols.any
      (fun kv => containsStr (lowerStr (pyStrOfList kv.2)) (lowerStr symbol_name)) then
    some { r with match_type := some "partial_symbol" }
  else
    none

/-- Model of `StructuredVectorStore.search_by_symbols` (vector_utils.py:202-231). -/
def search_by_symbols (backend : SearchBackend)
    (symbol_type symbol_name : String) : List SearchResult :=
  (search_structured_repo backend (symbol_type ++ " " ++ symbol_name)).filterMap
    (symbol_match_tag symbol_type symbol_name)

/-- The filter body of `search_by_imports` (vector_utils.py:250-255):
`any(import_pattern.lower() in imp.lower() for imp in imports)` keeps the
record tagged `import_match`. -/
def import_match_tag (import_pattern : String) (r : SearchResult) :
    Option SearchResult :=
  if r.imports.any
      (fun imp => containsStr (lowerStr imp) (lowerStr import_pattern)) then
    some { r with match_type := some "import_match" }
  else
    none

/-- Model of `StructuredVectorStore.search_by_imports` (vector_utils.py:233-257). -/
def search_by_imports (backend : SearchBackend) (import_pattern : String) :
    List SearchResult :=
  (search_structured_repo backend ("import " ++ import_pattern)).filterMap
    (import_match_tag import_pattern)

/-! ## Concrete instances used by the closed theorems -/

/-- An extractor state with tree-sitter unavailable and inert regex matching:
the degraded configuration the sources guard against. -/
def env0 : ExtractorEnv :=
  { tree_sitter_available := false
    parsers := []
    parseOutcome := fun _ _ => Except.ok []
    findall := fun _ _ => [] }

/-- A splitter that always raises. -/
def sp_err : Splitter := fun _ _ _ _ => Except.error "boom"

/-- A splitter that returns a single document, as the langchain recursive
splitter can after whitespace stripping. -/
def sp_ok1 : Splitter := fun _ _ _ _ => Except.ok ["seg"]

/-- A splitter that returns two documents. -/
def sp_ok2 : Splitter := fun _ _ _ _ => Except.ok ["ab", "cd"]

/-- Stored attributes of one persisted chunk record. -/
def sampleAttrs : StoredAttrs :=
  { repo_id := "repo"
    chunk_id := none
    content := "code"
    symbols := [("functions", ["main"])]
    imports := ["import os"]
    metadata := [("language", MValue.s "python")]
    repo_name := "repo"
    path := "f.py" }

/-- A backend returning the single sample tuple for every query. -/
def sampleBackend : SearchBackend :=
  fun _ => Except.ok [{ id := "f.py", distance := 0, attrs := sampleAttrs }]

/-- The schema record the sample tuple deserializes to. -/
def samplePlain : SearchResult :=
  { id := "f.py"
    repo_id := "repo"
    chunk_id := none
    content := "code"
    embedding := none
    symbols := [("functions", ["main"])]
    imports := ["import os"]
    metadata := [("language", MValue.s "python")]
    similarity_score := 1
    match_type := none }

/-- The sample record as returned by `search_by_symbols` for `main`. -/
def sampleExact : SearchResult := { samplePlain with match_type := some "exact_symbol" }

/-- The sample record as returned by `search_by_imports` for `os`. -/
def sampleImportTagged : SearchResult := { samplePlain with match_type := some "import_match" }

/-- Stored attributes whose only symbol values are `alpha`. -/
def c7cexAttrs : StoredAttrs :=
  { repo_id := "repo"
    chunk_id := none
    content := "code"
    symbols := [("functions", ["alpha"])]
    imports := []
    metadata := []
    repo_name := "repo"
    path := "f.py" }

/-- Backend for the `search_by_symbols` counterexample. -/
def c7cexBackend : SearchBackend :=
  fun _ => Except.ok [{ id := "f.py", distance := 0, attrs := c7cexAttrs }]

/-- The matching condition as claim C7 states it: the name is exactly a
member of the requested category, or a case-insensitive substring of some
individual symbol value.  Stated from the claim wording for comparison; the
source instead tests the name against the Python string form `str(v)` of
each whole value list. -/
def claimed_symbol_condition (symbol_type symbol_name : String)
    (r : SearchResult) : Bool :=
  (assocHas symbol_type r.symbols &&
    (assocGetD symbol_type r.symbols).contains symbol_name)
  || r.symbols.any (fun kv =>
      kv.2.any fun v => containsStr (lowerStr v) (lowerStr symbol_name))

/-! ## Helper lemmas -/

theorem enum_map_comp {α β : Type _} (l : List α) (f : Nat → β) :
    l.enum.map (fun p => f p.1) = (List.range l.length).map f := by
  have h : (fun p : Nat × α => f p.1) = f ∘ Prod.fst := rfl
  rw [h, ← List.map_map, List.enum_map_fst]

@[simp] theorem whole_file_record_id (fp r c ln ts : String) (cs : List (String × List String))
    (im : List String) (ex : List (String × MValue)) :
    (whole_file_record fp r c ln ts cs im ex).id = fp := rfl

@[simp] theorem whole_file_record_chunk_id (fp r c ln ts : String) (cs : List (String × List String))
    (im : List String) (ex : List (String × MValue)) :
    (whole_file_record fp r c ln ts cs im ex).chunk_id = none := rfl

@[simp] theorem whole_file_record_content (fp r c ln ts : String) (cs : List (String × List String))
    (im : List String) (ex : List (String × MValue)) :
    (whole_file_record fp r c ln ts cs im ex).content = c := rfl

@[simp] theorem whole_file_record_symbols (fp r c ln ts : String) (cs : List (String × List String))
    (im : List String) (ex : List (String × MValue)) :
    (whole_file_record fp r c ln ts cs im ex).symbols = cs := rfl

@[simp] theorem whole_file_record_imports (fp r c ln ts : String) (cs : List (String × List String))
    (im : List String) (ex : List (String × MValue)) :
    (whole_file_record fp r c ln ts cs im ex).imports = im := rfl

@[simp] theorem chunk_record_id (fp r d ln ts : String) (i t : Nat)
    (cs : List (String × List String)) (im : List String) :
    (chunk_record fp r d ln ts i t cs im).id = fp ++ "#chunk_" ++ toString i := rfl

@[simp] theorem chunk_record_chunk_id (fp r d ln ts : String) (i t : Nat)
    (cs : List (String × List String)) (im : List String) :
    (chunk_record fp r d ln ts i t cs im).chunk_id = some i := rfl

theorem metaLookup_total_chunks_whole (a : String) (b : Nat) (c : String) :
    metaLookup "total_chunks"
      [("language", MValue.s a), ("size", MValue.n b), ("timestamp", MValue.s c)] = none := rfl

theorem metaLookup_total_chunks_err (a : String) (b : Nat) (c e : String) :
    metaLookup "total_chunks"
      ([("language", MValue.s a), ("size", MValue.n b), ("timestamp", MValue.s c)] ++
        [("chunking_error", MValue.s e)]) = none := rfl

/-! ## Claims -/

/-- C3: `process_file_structured` attempts to split a file exactly when
`len(content) > chunk_size` and a language-specific splitter exists for the
language detected from the path extension (the detected language is not
`None`); in every other case it emits exactly one whole-file record whose
content equals the input content. -/
theorem c3_split_decision (env : ExtractorEnv) (splitter : Splitter)
    (timestamp file_path content repo_id : String)
    (chunk_size chunk_overlap : Nat) :
    (should_chunk file_path content chunk_size = true ↔
      (chunk_size < content.length ∧
        (get_language_from_extension file_path).isSome = true))
    ∧ (should_chunk file_path content chunk_size = false →
        process_file_structured env splitter timestamp file_path content
            repo_id chunk_size chunk_overlap =
          [whole_file_record file_path repo_id content
            (languageName (get_language_from_extension file_path)) timestamp
            (extract_symbol_names (extract_file_symbols env file_path content))
            (extract_imports_from_symbols (extract_file_symbols env file_path content))
            []])
    ∧ (∀ lang, get_language_from_extension file_path = some lang →
        chunk_size < content.length →
        process_file_structured env splitter timestamp file_path content
            repo_id chunk_size chunk_overlap =
          split_with splitter timestamp file_path content repo_id chunk_size
            chunk_overlap lang
            (extract_symbol_names (extract_file_symbols env file_path content))
            (extract_imports_from_symbols (extract_file_symbols env file_path content))) := by
  refine ⟨?_, ?_, ?_⟩
  · simp [should_chunk]
  · intro h
    cases hL : get_language_from_extension file_path with
    | none => simp [process_file_structured, hL, languageName]
    | some lang =>
        have hlen : ¬ chunk_size < content.length := by
          unfold should_chunk at h
          rw [hL] at h
          simpa using h
        simp [process_file_structured, hL, if_neg hlen, languageName]
  · intro lang hL hlen
    simp [process_file_structured, hL, if_pos hlen]

/-- C3 witness: a two-character Python file under a chunk size of 3 is kept
whole with its content intact. -/
theorem c3_witness :
    should_chunk "m.py" "ab" 3 = false
    ∧ process_file_structured env0 sp_err "ts" "m.py" "ab" "r" 3 0 =
        [whole_file_record "m.py" "r" "ab"
          (languageName (get_language_from_extension "m.py")) "ts"
          (extract_symbol_names (extract_file_symbols env0 "m.py" "ab"))
          (extract_imports_from_symbols (extract_file_symbols env0 "m.py" "ab"))
          []] :=
  ⟨by decide, (c3_split_decision env0 sp_err "ts" "m.py" "ab" "r" 3 0).2.1 (by decide)⟩

/-- C1 (amended): when the splitter succeeds with N segments the produced ids
are exactly `{path}#chunk_0 .. {path}#chunk_{N-1}` in order — including the
boundary case N = 1, where the single record's id is `{path}#chunk_0`, not
the bare path; a single record produced without a successful split (file kept
whole, or splitter failure) has id exactly the file path. -/
theorem c1_chunk_identity (env : ExtractorEnv) (splitter : Splitter)
    (timestamp file_path content repo_id : String)
    (chunk_size chunk_overlap : Nat) :
    (should_chunk file_path content chunk_size = false →
      (process_file_structured env splitter timestamp file_path content
          repo_id chunk_size chunk_overlap).map (·.id) = [file_path])
    ∧ (∀ lang e, get_language_from_extension file_path = some lang →
        chunk_size < content.length →
        splitter lang chunk_size chunk_overlap content = .error e →
        (process_file_structured env splitter timestamp file_path content
            repo_id chunk_size chunk_overlap).map (·.id) = [file_path])
    ∧ (∀ lang docs, get_language_from_extension file_path = some lang →
        chunk_size < content.length →
        splitter lang chunk_size chunk_overlap content = .ok docs →
        (process_file_structured env splitter timestamp file_path content
            repo_id chunk_size chunk_overlap).map (·.id) =
          (List.range docs.length).map
            (fun i => file_path ++ "#chunk_" ++ toString i)) := by
  refine ⟨?_, ?_, ?_⟩
  · intro h
    cases hL : get_language_from_extension file_path with
    | none => simp [process_file_structured, hL]
    | some lang =>
        have hlen : ¬ chunk_size < content.length := by
          unfold should_chunk at h
          rw [hL] at h
          simpa using h
        simp [process_file_structured, hL, if_neg hlen]
  · intro lang e hL hlen hs
    simp [process_file_structured, hL, if_pos hlen, split_with, hs]
  · intro lang docs hL hlen hs
    simp only [process_file_structured, hL, if_pos hlen, split_with, hs,
      List.map_map]
    exact enum_map_comp docs (fun i => file_path ++ "#chunk_" ++ toString i)

/-- C1 counterexample: a 4-character Python file with chunk size 3 whose
splitter returns a single segment yields exactly one record, but its id is
`a.py#chunk_0`, not the bare path the claim requires for N = 1. -/
theorem c1_counterexample :
    (process_file_structured env0 sp_ok1 "ts" "a.py" "abcd" "r" 3 0).length = 1
    ∧ (process_file_structured env0 sp_ok1 "ts" "a.py" "abcd" "r" 3 0).map (·.id) =
        ["a.py#chunk_0"]
    ∧ ("a.py#chunk_0" : String) ≠ "a.py" := by decide

/-- C1 witness: a split into two segments carries ids `m.py#chunk_0`,
`m.py#chunk_1`. -/
theorem c1_witness :
    get_language_from_extension "m.py" = some LCLanguage.python
    ∧ 3 < String.length "abcdefgh"
    ∧ sp_ok2 LCLanguage.python 3 0 "abcdefgh" = .ok ["ab", "cd"]
    ∧ (process_file_structured env0 sp_ok2 "ts" "m.py" "abcdefgh" "r" 3 0).map (·.id) =
        (List.range (["ab", "cd"] : List String).length).map
          (fun i => "m.py" ++ "#chunk_" ++ toString i) :=
  ⟨by decide, by decide, rfl,
    (c1_chunk_identity env0 sp_ok2 "ts" "m.py" "abcdefgh" "r" 3 0).2.2
      LCLanguage.python ["ab", "cd"] (by decide) (by decide) rfl⟩

/-- C2: a file split into N segments yields exactly N chunk records, their
`chunk_id` values are the contiguous sequence `0 .. N-1` in source order, and
all N records carry identical symbols, identical imports and the same
metadata language. -/
theorem c2_chunk_uniformity (env : ExtractorEnv) (splitter : Splitter)
    (timestamp file_path content repo_id : String)
    (chunk_size chunk_overlap : Nat) (lang : LCLanguage) (docs : List String)
    (hL : get_language_from_extension file_path = some lang)
    (hlen : chunk_size < content.length)
    (hs : splitter lang chunk_size chunk_overlap content = .ok docs) :
    (process_file_structured env splitter timestamp file_path content
        repo_id chunk_size chunk_overlap).length = docs.length
    ∧ (process_file_structured env splitter timestamp file_path content
        repo_id chunk_size chunk_overlap).map (·.chunk_id) =
        (List.range docs.length).map some
    ∧ (∀ r ∈ process_file_structured env splitter timestamp file_path content
          repo_id chunk_size chunk_overlap,
        ∀ s ∈ process_file_structured env splitter timestamp file_path content
          repo_id chunk_size chunk_overlap,
        r.symbols = s.symbols ∧ r.imports = s.imports ∧
          metaLookup "language" r.metadata = metaLookup "language" s.metadata) := by
  have hp : process_file_structured env splitter timestamp file_path content
      repo_id chunk_size chunk_overlap =
      docs.enum.map (fun p =>
        chunk_record file_path repo_id p.2 lang.value timestamp p.1 docs.length
          (extract_symbol_names (extract_file_symbols env file_path content))
          (extract_imports_from_symbols (extract_file_symbols env file_path content))) := by
    simp [process_file_structured, hL, if_pos hlen, split_with, hs]
  refine ⟨?_, ?_, ?_⟩
  · rw [hp]
    simp
  · rw [hp, List.map_map]
    exact enum_map_comp docs some
  · intro r hr s hsm
    rw [hp] at hr hsm
    obtain ⟨p, _, rfl⟩ := List.mem_map.mp hr
    obtain ⟨q, _, rfl⟩ := List.mem_map.mp hsm
    exact ⟨rfl, rfl, rfl⟩

/-- C2 witness: a concrete split into two segments. -/
theorem c2_witness :
    (process_file_structured env0 sp_ok2 "ts" "m.py" "abcdefgh" "r" 3 0).length =
        (["ab", "cd"] : List String).length
    ∧ (process_file_structured env0 sp_ok2 "ts" "m.py" "abcdefgh" "r" 3 0).map (·.chunk_id) =
        (List.range (["ab", "cd"] : List String).length).map some
    ∧ (∀ r ∈ process_file_structured env0 sp_ok2 "ts" "m.py" "abcdefgh" "r" 3 0,
        ∀ s ∈ process_file_structured env0 sp_ok2 "ts" "m.py" "abcdefgh" "r" 3 0,
        r.symbols = s.symbols ∧ r.imports = s.imports ∧
          metaLookup "language" r.metadata = metaLookup "language" s.metadata) :=
  c2_chunk_uniformity env0 sp_ok2 "ts" "m.py" "abcdefgh" "r" 3 0
    LCLanguage.python ["ab", "cd"] (by decide) (by decide) rfl

/-- C4: when the splitter raises, `process_file_structured` still returns
exactly one record whose content is the original file content and whose
metadata carries `chunking_error` with the failure reason; no file is ever
dropped because splitting failed. -/
theorem c4_split_failure_fallback (env : ExtractorEnv) (splitter : Splitter)
    (timestamp file_path content repo_id : String)
    (chunk_size chunk_overlap : Nat) (lang : LCLanguage) (e : String)
    (hL : get_language_from_extension file_path = some lang)
    (hlen : chunk_size < content.length)
    (hs : splitter lang chunk_size chunk_overlap content = .error e) :
    (process_file_structured env splitter timestamp file_path content
        repo_id chunk_size chunk_overlap).length = 1
    ∧ ∀ r ∈ process_file_structured env splitter timestamp file_path content
        repo_id chunk_size chunk_overlap,
        r.content = content
        ∧ metaLookup "chunking_error" r.metadata = some (MValue.s e)
        ∧ r.chunk_id = none := by
  have hp : process_file_structured env splitter timestamp file_path content
      repo_id chunk_size chunk_overlap =
      [whole_file_record file_path repo_id content lang.value timestamp
        (extract_symbol_names (extract_file_symbols env file_path content))
        (extract_imports_from_symbols (extract_file_symbols env file_path content))
        [("chunking_error", MValue.s e)]] := by
    simp [process_file_structured, hL, if_pos hlen, split_with, hs]
  refine ⟨by rw [hp]; rfl, ?_⟩
  intro r hr
  rw [hp, List.mem_singleton] at hr
  subst hr
  exact ⟨rfl, rfl, rfl⟩

/-- C4 witness: a concrete failing splitter. -/
theorem c4_witness :
    (process_file_structured env0 sp_err "ts" "m.py" "abcdefgh" "r" 3 0).length = 1
    ∧ ∀ r ∈ process_file_structured env0 sp_err "ts" "m.py" "abcdefgh" "r" 3 0,
        r.content = "abcdefgh"
        ∧ metaLookup "chunking_error" r.metadata = some (MValue.s "boom")
        ∧ r.chunk_id = none :=
  c4_split_failure_fallback env0 sp_err "ts" "m.py" "abcdefgh" "r" 3 0
    LCLanguage.python "boom" (by decide) (by decide) rfl

/-- C9: every whole-file record — produced because the file was under the
size threshold, because no splitter existed for its language, or by the
split-failure fallback — has `chunk_id = none`, and any produced record with
`chunk_id = none` has no `total_chunks` key in its metadata. -/
theorem c9_whole_file_records (env : ExtractorEnv) (splitter : Splitter)
    (timestamp file_path content repo_id : String)
    (chunk_size chunk_overlap : Nat) :
    (∀ r ∈ process_file_structured env splitter timestamp file_path content
        repo_id chunk_size chunk_overlap,
      r.chunk_id = none → metaLookup "total_chunks" r.metadata = none)
    ∧ (should_chunk file_path content chunk_size = false →
        ∀ r ∈ process_file_structured env splitter timestamp file_path content
          repo_id chunk_size chunk_overlap, r.chunk_id = none)
    ∧ (∀ lang e, get_language_from_extension file_path = some lang →
        splitter lang chunk_size chunk_overlap content = .error e →
        ∀ r ∈ process_file_structured env splitter timestamp file_path content
          repo_id chunk_size chunk_overlap, r.chunk_id = none) := by
  refine ⟨?_, ?_, ?_⟩
  · intro r hr h0
    cases hL : get_language_from_extension file_path with
    | none =>
        simp only [process_file_structured, hL, List.mem_singleton] at hr
        subst hr
        exact metaLookup_total_chunks_whole _ _ _
    | some lang =>
        by_cases hlen : chunk_size < content.length
        · cases hsp : splitter lang chunk_size chunk_overlap content with
          | ok docs =>
              simp only [process_file_structured, hL, if_pos hlen, split_with,
                hsp] at hr
              obtain ⟨p, _, rfl⟩ := List.mem_map.mp hr
              simp at h0
          | error e =>
              simp only [process_file_structured, hL, if_pos hlen, split_with,
                hsp, List.mem_singleton] at hr
              subst hr
              exact metaLookup_total_chunks_err _ _ _ _
        · simp only [process_file_structured, hL, if_neg hlen,
            List.mem_singleton] at hr
          subst hr
          exact metaLookup_total_chunks_whole _ _ _
  · intro h r hr
    cases hL : get_language_from_extension file_path with
    | none =>
        simp only [process_file_structured, hL, List.mem_singleton] at hr
        subst hr
        rfl
    | some lang =>
        have hlen : ¬ chunk_size < content.length := by
          unfold should_chunk at h
          rw [hL] at h
          simpa using h
        simp only [process_file_structured, hL, if_neg hlen,
          List.mem_singleton] at hr
        subst hr
        rfl
  · intro lang e hL hs r hr
    by_cases hlen : chunk_size < content.length
    · simp only [process_file_structured, hL, if_pos hlen, split_with, hs,
        List.mem_singleton] at hr
      subst hr
      rfl
    · simp only [process_file_structured, hL, if_neg hlen,
        List.mem_singleton] at hr
      subst hr
      rfl

/-- C9 witness: the split-failure fallback record has a null chunk id and no
`total_chunks` metadata key. -/
theorem c9_witness :
    get_language_from_extension "m.py" = some LCLanguage.python
    ∧ (∀ r ∈ process_file_structured env0 sp_err "ts" "m.py" "abcdefgh" "r" 3 0,
        r.chunk_id = none)
    ∧ (∀ r ∈ process_file_structured env0 sp_err "ts" "m.py" "abcdefgh" "r" 3 0,
        r.chunk_id = none → metaLookup "total_chunks" r.metadata = none) :=
  ⟨by decide,
    (c9_whole_file_records env0 sp_err "ts" "m.py" "abcdefgh" "r" 3 0).2.2
      LCLanguage.python "boom" (by decide) rfl,
    (c9_whole_file_records env0 sp_err "ts" "m.py" "abcdefgh" "r" 3 0).1⟩

/-- C5 counterexample: a `.xyz` file yields one whole-file record whose
symbols field is the empty mapping — `extract_symbol_names` drops the
`error` category — not `{"error": ["Unsupported file type"]}` as claimed;
its imports are `[]` as claimed. -/
theorem c5_counterexample :
    (process_file_structured env0 sp_err "ts" "file.xyz" "hello" "r" 4000 400).map
        (·.symbols) = [[]]
    ∧ (process_file_structured env0 sp_err "ts" "file.xyz" "hello" "r" 4000 400).map
        (·.imports) = [[]]
    ∧ ([] : List (String × List String)) ≠ [("error", ["Unsupported file type"])] := by
  decide

/-- C5 (amended): a file whose extension is in neither language map produces
exactly one whole-file record with an empty symbols mapping (the `error`
category returned by `extract_file_symbols` is dropped by the symbol-name
cleaning) and `imports = []`. -/
theorem c5_unsupported_extension (env : ExtractorEnv) (splitter : Splitter)
    (timestamp file_path content repo_id : String)
    (chunk_size chunk_overlap : Nat)
    (h1 : se_get_language_from_extension file_path = none)
    (h2 : get_language_from_extension file_path = none) :
    process_file_structured env splitter timestamp file_path content repo_id
        chunk_size chunk_overlap =
      [whole_file_record file_path repo_id content "unknown" timestamp [] [] []]
    ∧ ∀ r ∈ process_file_structured env splitter timestamp file_path content
        repo_id chunk_size chunk_overlap,
        r.symbols = [] ∧ r.imports = [] ∧ r.chunk_id = none ∧ r.content = content := by
  have hsym : extract_file_symbols env file_path content =
      [("error", ["Unsupported file type"])] := by
    unfold extract_file_symbols
    rw [h1]
  have hclean : extract_symbol_names [("error", ["Unsupported file type"])] = [] := rfl
  have himp : extract_imports_from_symbols [("error", ["Unsupported file type"])] = [] := rfl
  have hp : process_file_structured env splitter timestamp file_path content
      repo_id chunk_size chunk_overlap =
      [whole_file_record file_path repo_id content "unknown" timestamp [] [] []] := by
    simp [process_file_structured, h2, hsym, hclean, himp]
  refine ⟨hp, ?_⟩
  intro r hr
  rw [hp, List.mem_singleton] at hr
  subst hr
  exact ⟨rfl, rfl, rfl, rfl⟩

/-- C5 witness: the concrete `.xyz` file. -/
theorem c5_witness :
    se_get_language_from_extension "file.xyz" = none
    ∧ get_language_from_extension "file.xyz" = none
    ∧ process_file_structured env0 sp_err "ts" "file.xyz" "hello" "r" 4000 400 =
        [whole_file_record "file.xyz" "r" "hello" "unknown" "ts" [] [] []] :=
  ⟨by decide, by decide,
    (c5_unsupported_extension env0 sp_err "ts" "file.xyz" "hello" "r" 4000 400
      (by decide) (by decide)).1⟩

/-- C6: `extract_symbols` never raises to its caller: when tree-sitter is
unavailable, when the language has no initialised parser, or when the parse
(or the tree walk) raises, it returns the regex-fallback result; and for a
language with no fallback pattern table the fallback is the mapping whose
category lists are all empty. -/
theorem c6_extraction_never_fails (env : ExtractorEnv) (code language : String) :
    ((env.tree_sitter_available = false ∨ env.parsers.contains language = false) →
      extract_symbols env code language = fallback_extraction env code language)
    ∧ (∀ e, env.parseOutcome language code = .error e →
        extract_symbols env code language = fallback_extraction env code language)
    ∧ (language ≠ "python" → language ≠ "javascript" →
        fallback_extraction env code language =
          [("imports", []), ("functions", []), ("classes", [])]) := by
  refine ⟨?_, ?_, ?_⟩
  · intro h
    have hc : (!env.tree_sitter_available || !env.parsers.contains language) = true := by
      rcases h with h | h
      · rw [h]
        rfl
      · rw [h]
        simp
    unfold extract_symbols
    rw [hc]
    simp
  · intro e he
    unfold extract_symbols
    by_cases hc : (!env.tree_sitter_available || !env.parsers.contains language) = true
    · rw [hc]
      simp
    · have hcf : (!env.tree_sitter_available || !env.parsers.contains language) = false := by
        cases hx : (!env.tree_sitter_available || !env.parsers.contains language) with
        | true => exact absurd hx hc
        | false => rfl
      rw [hcf]
      simp [he]
  · intro hp hj
    unfold fallback_extraction fallbackPatternsFor
    rw [if_neg (by simp [hp]), if_neg (by simp [hj])]

/-- C6 witness: with tree-sitter unavailable and a language (`ruby`) outside
the fallback table, extraction still returns the all-empty mapping. -/
theorem c6_witness :
    env0.tree_sitter_available = false
    ∧ extract_symbols env0 "some code" "ruby" = fallback_extraction env0 "some code" "ruby"
    ∧ ("ruby" : String) ≠ "python"
    ∧ ("ruby" : String) ≠ "javascript"
    ∧ fallback_extraction env0 "some code" "ruby" =
        [("imports", []), ("functions", []), ("classes", [])] :=
  ⟨rfl,
    (c6_extraction_never_fails env0 "some code" "ruby").1 (Or.inl rfl),
    by decide, by decide,
    (c6_extraction_never_fails env0 "some code" "ruby").2.2 (by decide) (by decide)⟩

theorem symbol_match_tag_some (symbol_type symbol_name : String)
    (a r : SearchResult)
    (h : symbol_match_tag symbol_type symbol_name a = some r) :
    r = { a with match_type := some "exact_symbol" }
    ∨ r = { a with match_type := some "partial_symbol" } := by
  unfold symbol_match_tag at h
  split_ifs at h with h1 h2
  · exact Or.inl (Option.some.inj h).symm
  · exact Or.inr (Option.some.inj h).symm

theorem import_match_tag_some (import_pattern : String) (a r : SearchResult)
    (h : import_match_tag import_pattern a = some r) :
    r = { a with match_type := some "import_match" } := by
  unfold import_match_tag at h
  split_ifs at h with h1
  · exact (Option.some.inj h).symm

theorem clearTag_filterMap_sublist (f : SearchResult → Option SearchResult)
    (hf : ∀ a b, f a = some b →
      ({ b with match_type := none } : SearchResult) = { a with match_type := none }) :
    ∀ l : List SearchResult,
      ((l.filterMap f).map
        (fun r => ({ r with match_type := none } : SearchResult))).Sublist
      (l.map (fun r => ({ r with match_type := none } : SearchResult)))
  | [] => by simp
  | a :: l => by
    cases hfa : f a with
    | none =>
        simp only [List.filterMap_cons, hfa, List.map_cons]
        exact (clearTag_filterMap_sublist f hf l).cons _
    | some b =>
        simp only [List.filterMap_cons, hfa, List.map_cons]
        rw [hf a b hfa]
        exact (clearTag_filterMap_sublist f hf l).cons₂ _

theorem clearTag_search (backend : SearchBackend) (query : String) :
    (search_structured_repo backend query).map
        (fun r => ({ r with match_type := none } : SearchResult)) =
      search_structured_repo backend query := by
  unfold search_structured_repo
  cases backend query with
  | error e => rfl
  | ok rs =>
      simp only [List.map_map]
      rfl

/-- C7 (amended): every record returned by `search_by_symbols` either has the
requested name exactly in the requested category and is tagged
`exact_symbol`, or fails that test but has the name as a case-insensitive
substring of the Python string form `str(v)` of some category value list and
is tagged `partial_symbol`; nothing else appears, and the results keep the
original similarity ordering of the underlying search (exact matches are not
promoted). -/
theorem c7_symbol_filter (backend : SearchBackend)
    (symbol_type symbol_name : String) :
    (∀ r ∈ search_by_symbols backend symbol_type symbol_name,
      ((assocHas symbol_type r.symbols &&
          (assocGetD symbol_type r.symbols).contains symbol_name) = true
        ∧ r.match_type = some "exact_symbol")
      ∨ ((assocHas symbol_type r.symbols &&
          (assocGetD symbol_type r.symbols).contains symbol_name) = false
        ∧ (r.symbols.any fun kv =>
            containsStr (lowerStr (pyStrOfList kv.2)) (lowerStr symbol_name)) = true
        ∧ r.match_type = some "partial_symbol"))
    ∧ ((search_by_symbols backend symbol_type symbol_name).map
          (fun r => ({ r with match_type := none } : SearchResult))).Sublist
        (search_structured_repo backend (symbol_type ++ " " ++ symbol_name)) := by
  constructor
  · intro r hr
    obtain ⟨a, _, htag⟩ := List.mem_filterMap.mp hr
    unfold symbol_match_tag at htag
    split_ifs at htag with h1 h2
    · obtain rfl := (Option.some.inj htag).symm
      exact Or.inl ⟨h1, rfl⟩
    · obtain rfl := (Option.some.inj htag).symm
      exact Or.inr ⟨by simpa using h1, h2, rfl⟩
  · have hf : ∀ a b, symbol_match_tag symbol_type symbol_name a = some b →
        ({ b with match_type := none } : SearchResult) =
          { a with match_type := none } := by
      intro a b hab
      rcases symbol_match_tag_some symbol_type symbol_name a b hab with rfl | rfl <;> rfl
    have h := clearTag_filterMap_sublist (symbol_match_tag symbol_type symbol_name)
      hf (search_structured_repo backend (symbol_type ++ " " ++ symbol_name))
    rw [clearTag_search] at h
    exact h

/-- C7 counterexample: searching `functions` for the name `[` returns the
sample record tagged `partial_symbol` — the name matches the Python string
form `str(['alpha'])` of the value list — although `[` is neither exactly in
`symbols["functions"]` nor a substring of any individual symbol value, so
the claim's condition fails for a returned record. -/
theorem c7_counterexample :
    ((search_by_symbols c7cexBackend "functions" "[").map
        fun r => (r.id, r.match_type)) = [("f.py", some "partial_symbol")]
    ∧ (search_by_symbols c7cexBackend "functions" "[").all
        (claimed_symbol_condition "functions" "[") = false := by
  decide

/-- C7 witness: searching `functions` for `main` returns the sample record
tagged `exact_symbol`. -/
theorem c7_witness :
    sampleExact ∈ search_by_symbols sampleBackend "functions" "main"
    ∧ (((assocHas "functions" sampleExact.symbols &&
          (assocGetD "functions" sampleExact.symbols).contains "main") = true
        ∧ sampleExact.match_type = some "exact_symbol")
      ∨ ((assocHas "functions" sampleExact.symbols &&
          (assocGetD "functions" sampleExact.symbols).contains "main") = false
        ∧ (sampleExact.symbols.any fun kv =>
            containsStr (lowerStr (pyStrOfList kv.2)) (lowerStr "main")) = true
        ∧ sampleExact.match_type = some "partial_symbol")) :=
  ⟨by decide,
    (c7_symbol_filter sampleBackend "functions" "main").1 sampleExact (by decide)⟩

/-- C8: every record returned by `search_by_imports` has at least one import
string containing the pattern as a case-insensitive substring and is tagged
`import_match`; records with no such import are excluded. -/
theorem c8_import_filter (backend : SearchBackend) (import_pattern : String) :
    ∀ r ∈ search_by_imports backend import_pattern,
      r.match_type = some "import_match"
      ∧ (r.imports.any fun imp =>
          containsStr (lowerStr imp) (lowerStr import_pattern)) = true := by
  intro r hr
  obtain ⟨a, _, htag⟩ := List.mem_filterMap.mp hr
  unfold import_match_tag at htag
  split_ifs at htag with h1
  · obtain rfl := (Option.some.inj htag).symm
    exact ⟨rfl, h1⟩

/-- C8 witness: searching imports for `os` returns the sample record tagged
`import_match` with a matching import string. -/
theorem c8_witness :
    sampleImportTagged ∈ search_by_imports sampleBackend "os"
    ∧ sampleImportTagged.match_type = some "import_match"
    ∧ (sampleImportTagged.imports.any fun imp =>
        containsStr (lowerStr imp) (lowerStr "os")) = true :=
  ⟨by decide,
    (c8_import_filter sampleBackend "os" sampleImportTagged (by decide)).1,
    (c8_import_filter sampleBackend "os" sampleImportTagged (by decide)).2⟩

/-- C10: no search result ever carries the stored vector: every record
returned by `search_structured_repo` — and hence by `search_by_symbols` and
`search_by_imports`, which filter its output — has `embedding = none`. -/
theorem c10_embedding_never_returned (backend : SearchBackend)
    (query symbol_type symbol_name import_pattern : String) :
    (∀ r ∈ search_structured_repo backend query, r.embedding = none)
    ∧ (∀ r ∈ search_by_symbols backend symbol_type symbol_name,
        r.embedding = none)
    ∧ (∀ r ∈ search_by_imports backend import_pattern, r.embedding = none) := by
  have hsearch : ∀ q : String, ∀ r ∈ search_structured_repo backend q,
      r.embedding = none := by
    intro q r hr
    unfold search_structured_repo at hr
    cases hb : backend q with
    | error e =>
        rw [hb] at hr
        simp at hr
    | ok rs =>
        rw [hb] at hr
        obtain ⟨a, _, rfl⟩ := List.mem_map.mp hr
        rfl
  refine ⟨hsearch query, ?_, ?_⟩
  · intro r hr
    obtain ⟨a, ha, htag⟩ := List.mem_filterMap.mp hr
    have hemb := hsearch (symbol_type ++ " " ++ symbol_name) a ha
    rcases symbol_match_tag_some symbol_type symbol_name a r htag with rfl | rfl <;>
      exact hemb
  · intro r hr
    obtain ⟨a, ha, htag⟩ := List.mem_filterMap.mp hr
    have hemb := hsearch ("import " ++ import_pattern) a ha
    rw [import_match_tag_some import_pattern a r htag]
    exact hemb

/-- C10 witness: the sample search result has no embedding. -/
theorem c10_witness :
    samplePlain ∈ search_structured_repo sampleBackend "query"
    ∧ samplePlain.embedding = none :=
  ⟨by decide,
    (c10_embedding_never_returned sampleBackend "query" "t" "n" "p").1
      samplePlain (by decide)⟩
